import Mathlib

/-!
Verification of the signal-to-trade backtesting engine and the signal
derivation logic of the BitcoinSignalBot repository
(src/signalbot/backtest.py and src/signalbot/strategy.py).

Modelling conventions:
* Python floats are modelled as exact rationals; the claims under study are
  exact-arithmetic statements about the algorithms, not about IEEE rounding.
* A pandas DataFrame is modelled as a list of rows in index order (the code
  sorts by index before replaying, so `rows` is the sorted series), plus
  membership flags for the two required columns.
* A pandas NaN cell is modelled as `none`; pandas comparisons involving NaN
  are false, which the Option comparators below reproduce.
* Timestamps are rational numbers of seconds, so pandas
  `(t2 - t1).total_seconds() / 3600.0` is `(t2 - t1) / 3600`.
* A raised ValueError is an `Except.error`: the caller observes no partial
  ledger, metrics, or equity data.
-/

namespace SignalBot

/-- Uppercasing of one ASCII character, the effect of python `str.upper`
on the letters the signal enum uses. -/
def charUpper (c : Char) : Char :=
  if 97 ≤ c.toNat ∧ c.toNat ≤ 122 then Char.ofNat (c.toNat - 32) else c

/-- Uppercasing of a string, the effect of `str.upper` / pandas
`.str.upper()` on ASCII signal strings (backtest.py lines 68-71). -/
def stringUpper (s : String) : String := ⟨s.data.map charUpper⟩

/-- One row of the input frame to `backtest_signals`: its timestamp
(seconds), the `close` cell and the `signal` cell. -/
structure Bar where
  ts : ℚ
  close : ℚ
  signal : String
deriving Repr, DecidableEq

/-- The input frame. The row data lives in `rows` (in index order);
`hasClose` and `hasSignal` record whether the `close` and `signal` columns
are present, so that the column check of backtest.py line 63 can be
expressed. -/
structure Frame where
  hasClose : Bool
  hasSignal : Bool
  rows : List Bar
deriving Repr, DecidableEq

/-- A closed round-trip trade, as appended to `trade_log`
(backtest.py lines 108-121 and 145-158). -/
structure Trade where
  entry_time : ℚ
  exit_time : ℚ
  entry_price : ℚ
  exit_price : ℚ
  pnl_pct : ℚ
  duration_hrs : ℚ
deriving Repr, DecidableEq

/-- The accumulated replay state of the loop of backtest.py lines 73-133:
cash, the open position quantity, the recorded entry fill price and entry
timestamp (None while FLAT), the trade ledger, the list `pnl_decimals`,
the equity curve as (timestamp, value) pairs, the running peak equity and
the running maximum drawdown. -/
structure BTState where
  cash : ℚ
  position : ℚ
  entry_price : Option ℚ
  entry_time : Option ℚ
  trades : List Trade
  pnls : List ℚ
  equity : List (ℚ × ℚ)
  peak : ℚ
  maxDD : ℚ
deriving Repr, DecidableEq

/-- The end-of-bar bookkeeping of backtest.py lines 128-133: record an
equity point `cash + position * close`, raise the peak, and lower the
running maximum drawdown (the code guards the division by the truthiness
of `peak_equity`). -/
def pushEquity (b : Bar) (st : BTState) : BTState :=
  let equity := st.cash + st.position * b.close
  let peak := max st.peak equity
  let drawdown := if peak ≠ 0 then (equity - peak) / peak else 0
  { st with
    equity := st.equity ++ [(b.ts, equity)]
    peak := peak
    maxDD := min st.maxDD drawdown }

/-- One iteration of the replay loop of backtest.py lines 86-133.  The
close is validated first (line 88); a FLAT state plus a buy signal opens a
LONG (lines 91-98); a LONG state plus a sell signal closes it and appends
a trade (lines 100-126); every other combination changes no trading
state.  Every branch ends with the equity bookkeeping of lines 128-133.
While LONG the entry price and time are always set; missing entry data in
the sell branch is Python TypeError territory and surfaces as an error. -/
def stepBar (buySet sellSet : List String) (slippage commission : ℚ)
    (st : BTState) (b : Bar) : Except String BTState :=
  if b.close ≤ 0 then .error "Close prices must be positive for backtesting"
  else if st.position = 0 ∧ b.signal ∈ buySet then
    let commission_fee := st.cash * commission
    let cash_after_fee := st.cash - commission_fee
    let effective_price := b.close * (1 + slippage)
    let position := cash_after_fee / effective_price
    .ok (pushEquity b { st with
      cash := cash_after_fee - position * effective_price
      position := position
      entry_price := some effective_price
      entry_time := some b.ts })
  else if 0 < st.position ∧ b.signal ∈ sellSet then
    match st.entry_price, st.entry_time with
    | some entry_price, some entry_time =>
      let effective_price := b.close * (1 - slippage)
      let gross_proceeds := st.position * effective_price
      let commission_fee := gross_proceeds * commission
      let proceeds_net := gross_proceeds - commission_fee
      let pnl_decimal := (effective_price - entry_price) / entry_price
      .ok (pushEquity b { st with
        cash := st.cash + proceeds_net
        position := 0
        entry_price := none
        entry_time := none
        trades := st.trades ++ [{
          entry_time := entry_time
          exit_time := b.ts
          entry_price := entry_price
          exit_price := effective_price
          pnl_pct := pnl_decimal * 100
          duration_hrs := (b.ts - entry_time) / 3600 }]
        pnls := st.pnls ++ [pnl_decimal] })
    | _, _ => .error "entry data missing while LONG"
  else
    .ok (pushEquity b st)

/-- Sequential replay of the bar loop: the bars are consumed in order and
the first failing bar aborts the whole run. -/
def replay (buySet sellSet : List String) (slippage commission : ℚ) :
    BTState → List Bar → Except String BTState
  | st, [] => .ok st
  | st, b :: bs =>
    match stepBar buySet sellSet slippage commission st b with
    | .error e => .error e
    | .ok st' => replay buySet sellSet slippage commission st' bs

/-- Overwrite the value of the last equity point, keeping its timestamp
(backtest.py line 165, `equity_curve[-1] = float(cash)`). -/
def replaceLastEquity : List (ℚ × ℚ) → ℚ → List (ℚ × ℚ)
  | [], _ => []
  | [p], v => [(p.1, v)]
  | p :: ps, v => p :: replaceLastEquity ps v

/-- The forced liquidation of backtest.py lines 135-165: a position still
open after the last bar is closed at that bar's close with the same
slippage and commission treatment as a signal exit, a trade is appended,
and the last equity value is overwritten with the post-liquidation cash. -/
def forcedExit (slippage commission : ℚ) (bars : List Bar) (st : BTState) : BTState :=
  if 0 < st.position then
    match st.entry_price, st.entry_time, bars.getLast? with
    | some entry_price, some entry_time, some lastBar =>
      let price := lastBar.close
      let effective_price := price * (1 - slippage)
      let gross_proceeds := st.position * effective_price
      let commission_fee := gross_proceeds * commission
      let proceeds_net := gross_proceeds - commission_fee
      let pnl_decimal := (effective_price - entry_price) / entry_price
      let cash' := st.cash + proceeds_net
      { st with
        cash := cash'
        position := 0
        entry_price := none
        entry_time := none
        trades := st.trades ++ [{
          entry_time := entry_time
          exit_time := lastBar.ts
          entry_price := entry_price
          exit_price := effective_price
          pnl_pct := pnl_decimal * 100
          duration_hrs := (lastBar.ts - entry_time) / 3600 }]
        pnls := st.pnls ++ [pnl_decimal]
        equity := replaceLastEquity st.equity cash' }
    | _, _, _ => st
  else st

/-- Ratio metrics of the engine can be the float `inf` (backtest.py lines
176-178 and 185-187); the unbounded value is kept as an explicit tagged
alternative rather than a floating-point infinity. -/
inductive MetricVal
  | fin : ℚ → MetricVal
  | posInf : MetricVal
deriving Repr, DecidableEq

/-- The fixed-shape metrics record returned by `backtest_signals`
(backtest.py lines 189-224 and 249). -/
structure Metrics where
  total_trades : ℕ
  win_rate : ℚ
  avg_gain : ℚ
  avg_loss : ℚ
  profit_factor : MetricVal
  net_return : ℚ
  max_drawdown : ℚ
  final_balance : ℚ
  gross_gain : ℚ
  gross_loss : ℚ
  best_trade : ℚ
  worst_trade : ℚ
  win_loss_ratio : MetricVal
  initial_balance : ℚ
  avg_hold_hours : ℚ
  median_hold_hours : ℚ
  exposure_pct : ℚ
deriving Repr, DecidableEq

/-- Maximum of a list, `max(xs)` over a non-empty python list; 0 for []. -/
def listMax : List ℚ → ℚ
  | [] => 0
  | x :: xs => xs.foldl max x

/-- Minimum of a list, `min(xs)` over a non-empty python list; 0 for []. -/
def listMin : List ℚ → ℚ
  | [] => 0
  | x :: xs => xs.foldl min x

/-- Arithmetic mean, `np.mean` over a non-empty list; 0 for []. -/
def listMean (l : List ℚ) : ℚ :=
  if l.length = 0 then 0 else l.sum / l.length

/-- Insert a value into an already sorted list of rationals. -/
def insertSorted (x : ℚ) : List ℚ → List ℚ
  | [] => [x]
  | y :: ys => if x ≤ y then x :: y :: ys else y :: insertSorted x ys

/-- Insertion sort of a list of rationals, ascending. -/
def sortRats : List ℚ → List ℚ
  | [] => []
  | x :: xs => insertSorted x (sortRats xs)

/-- Median as pandas computes it: sort, take the middle element for odd
length, the mean of the two middle elements for even length. -/
def listMedian (l : List ℚ) : ℚ :=
  let s := sortRats l
  let n := l.length
  if n = 0 then 0
  else if n % 2 = 1 then s.getD (n / 2) 0
  else (s.getD (n / 2 - 1) 0 + s.getD (n / 2) 0) / 2

/-- The zero-valued metrics record of backtest.py lines 29-47, returned
for an empty input frame. -/
def emptyMetrics (initial_balance : ℚ) : Metrics where
  total_trades := 0
  win_rate := 0
  avg_gain := 0
  avg_loss := 0
  profit_factor := .fin 0
  net_return := 0
  max_drawdown := 0
  final_balance := initial_balance
  gross_gain := 0
  gross_loss := 0
  best_trade := 0
  worst_trade := 0
  win_loss_ratio := .fin 0
  initial_balance := initial_balance
  avg_hold_hours := 0
  median_hold_hours := 0
  exposure_pct := 0

/-- The metrics derivation of backtest.py lines 167-249, computed once
from the finalized replay state. -/
def computeMetrics (initial_balance : ℚ) (st : BTState) : Metrics :=
  let pnls := st.pnls
  let total_trades := pnls.length
  let wins := pnls.filter (fun p => 0 < p)
  let losses := pnls.filter (fun p => p ≤ 0)
  let final_equity := st.cash
  let durations := st.trades.map Trade.duration_hrs
  let total_hours : ℚ :=
    match st.equity.head?, st.equity.getLast? with
    | some f, some l => if 0 < l.1 - f.1 then (l.1 - f.1) / 3600 else 0
    | _, _ => 0
  { total_trades := total_trades
    win_rate := if total_trades ≠ 0 then (wins.length : ℚ) / total_trades * 100 else 0
    avg_gain := if wins ≠ [] then listMean wins * 100 else 0
    avg_loss := if losses ≠ [] then listMean losses * 100 else 0
    profit_factor :=
      if losses ≠ [] ∧ losses.sum ≠ 0 then .fin |wins.sum / losses.sum|
      else if wins ≠ [] then .posInf
      else .fin 0
    net_return := (final_equity / initial_balance - 1) * 100
    max_drawdown := st.maxDD * 100
    final_balance := final_equity
    gross_gain := (pnls.filter (fun p => 0 < p)).sum * 100
    gross_loss := |(pnls.filter (fun p => p < 0)).sum| * 100
    best_trade := if pnls ≠ [] then listMax pnls * 100 else 0
    worst_trade := if pnls ≠ [] then listMin pnls * 100 else 0
    win_loss_ratio :=
      if losses ≠ [] then .fin ((wins.length : ℚ) / losses.length)
      else if wins ≠ [] then .posInf
      else .fin 0
    initial_balance := initial_balance
    avg_hold_hours := if st.trades ≠ [] then listMean durations else 0
    median_hold_hours := if st.trades ≠ [] then listMedian durations else 0
    exposure_pct :=
      if st.trades ≠ [] ∧ 0 < total_hours then durations.sum / total_hours * 100 else 0 }

/-- The replay state before the first bar (backtest.py lines 73-84). -/
def initState (initial_balance : ℚ) : BTState where
  cash := initial_balance
  position := 0
  entry_price := none
  entry_time := none
  trades := []
  pnls := []
  equity := []
  peak := initial_balance
  maxDD := 0

/-- The signal column is uppercased before the replay
(backtest.py line 68, `data["signal"].astype(str).str.upper()`). -/
def upperBars (rows : List Bar) : List Bar :=
  rows.map fun b => { b with signal := stringUpper b.signal }

/-- The full result of `backtest_signals`: the metrics record, the trade
ledger and the equity curve. -/
structure BTResult where
  metrics : Metrics
  trades : List Trade
  equity : List (ℚ × ℚ)
deriving Repr, DecidableEq

/-- Embedding of `backtest_signals` (backtest.py lines 12-251): validate
the balance, return the zero-valued terminal result on an empty frame,
validate the required columns, uppercase the signal sets and column,
replay the bars, liquidate a position still open, and derive metrics. -/
def backtest_signals (df : Frame) (initial_balance : ℚ)
    (buy_signals sell_signals : List String) (slippage commission : ℚ) :
    Except String BTResult :=
  if initial_balance ≤ 0 then .error "initial_balance must be positive"
  else if df.rows = [] then .ok ⟨emptyMetrics initial_balance, [], []⟩
  else if ¬(df.hasClose = true ∧ df.hasSignal = true) then
    .error "DataFrame must include close and signal columns"
  else
    let buySet := buy_signals.map stringUpper
    let sellSet := sell_signals.map stringUpper
    let bars := upperBars df.rows
    match replay buySet sellSet slippage commission (initState initial_balance) bars with
    | .error e => .error e
    | .ok st =>
      let stF := forcedExit slippage commission bars st
      .ok ⟨computeMetrics initial_balance stF, stF.trades, stF.equity⟩

/-! ## Projections of the equity bookkeeping

The equity bookkeeping of a bar touches only the equity curve, the peak
and the drawdown; the trading state passes through it unchanged. -/

@[simp] lemma pushEquity_cash (b : Bar) (st : BTState) : (pushEquity b st).cash = st.cash := rfl

@[simp] lemma pushEquity_position (b : Bar) (st : BTState) :
    (pushEquity b st).position = st.position := rfl

@[simp] lemma pushEquity_entry_price (b : Bar) (st : BTState) :
    (pushEquity b st).entry_price = st.entry_price := rfl

@[simp] lemma pushEquity_entry_time (b : Bar) (st : BTState) :
    (pushEquity b st).entry_time = st.entry_time := rfl

@[simp] lemma pushEquity_trades (b : Bar) (st : BTState) : (pushEquity b st).trades = st.trades := rfl

@[simp] lemma pushEquity_pnls (b : Bar) (st : BTState) : (pushEquity b st).pnls = st.pnls := rfl

@[simp] lemma pushEquity_equity (b : Bar) (st : BTState) :
    (pushEquity b st).equity = st.equity ++ [(b.ts, st.cash + st.position * b.close)] := rfl

/-! ## The FLAT/LONG transition behaviour of one replay step (claim C1) -/

/-- Specification of one replay step, phrased from the spec: while FLAT a
buy signal opens a LONG (commission deducted from cash, fill price
widened upward by slippage, quantity = post-commission cash over slipped
price, remainder swept back to cash, entry recorded, no trade appended);
while LONG a sell signal closes (fill price lowered by slippage,
commission subtracted from gross proceeds, net proceeds added to cash, a
trade appended with percentage profit and duration in hours); any other
signal in either state changes no trading state. -/
def StepSpec (buySet sellSet : List String) (slippage commission : ℚ)
    (st : BTState) (b : Bar) : Prop :=
  (st.position = 0 → b.signal ∈ buySet →
    ∃ st', stepBar buySet sellSet slippage commission st b = .ok st' ∧
      st'.cash = (st.cash - st.cash * commission) -
        (st.cash - st.cash * commission) / (b.close * (1 + slippage)) * (b.close * (1 + slippage)) ∧
      st'.position = (st.cash - st.cash * commission) / (b.close * (1 + slippage)) ∧
      st'.entry_price = some (b.close * (1 + slippage)) ∧
      st'.entry_time = some b.ts ∧
      st'.trades = st.trades ∧ st'.pnls = st.pnls) ∧
  (∀ ep et, 0 < st.position → b.signal ∈ sellSet →
    st.entry_price = some ep → st.entry_time = some et →
    ∃ st', stepBar buySet sellSet slippage commission st b = .ok st' ∧
      st'.cash = st.cash + (st.position * (b.close * (1 - slippage)) -
        st.position * (b.close * (1 - slippage)) * commission) ∧
      st'.position = 0 ∧ st'.entry_price = none ∧ st'.entry_time = none ∧
      st'.trades = st.trades ++ [⟨et, b.ts, ep, b.close * (1 - slippage),
        (b.close * (1 - slippage) - ep) / ep * 100, (b.ts - et) / 3600⟩] ∧
      st'.pnls = st.pnls ++ [(b.close * (1 - slippage) - ep) / ep]) ∧
  (¬(st.position = 0 ∧ b.signal ∈ buySet) → ¬(0 < st.position ∧ b.signal ∈ sellSet) →
    ∃ st', stepBar buySet sellSet slippage commission st b = .ok st' ∧
      st'.cash = st.cash ∧ st'.position = st.position ∧
      st'.entry_price = st.entry_price ∧ st'.entry_time = st.entry_time ∧
      st'.trades = st.trades ∧ st'.pnls = st.pnls)

/-- C1: on every bar with a positive close, the replay step behaves as the
FLAT/LONG state machine of the spec: FLAT plus a buy signal opens a LONG
with the stated commission, slippage, quantity and remainder treatment
and records the entry; LONG plus a sell signal closes at the slipped
price net of commission and appends the trade with the stated percentage
profit and duration in hours; any other signal changes nothing. -/
theorem C1_state_machine (buySet sellSet : List String) (slippage commission : ℚ)
    (st : BTState) (b : Bar) (hclose : 0 < b.close) :
    StepSpec buySet sellSet slippage commission st b := by
  have hcl : ¬ b.close ≤ 0 := not_le.mpr hclose
  refine ⟨?_, ?_, ?_⟩
  · intro h0 hb
    rw [stepBar, if_neg hcl, if_pos ⟨h0, hb⟩]
    exact ⟨_, rfl, by simp, by simp, by simp, by simp, by simp, by simp⟩
  · intro ep et hp hs hep het
    have hn : ¬(st.position = 0 ∧ b.signal ∈ buySet) := by
      rintro ⟨h, _⟩; exact absurd h (ne_of_gt hp)
    rw [stepBar, if_neg hcl, if_neg hn, if_pos ⟨hp, hs⟩, hep, het]
    exact ⟨_, rfl, by simp, by simp, by simp, by simp, by simp, by simp⟩
  · intro h1 h2
    rw [stepBar, if_neg hcl, if_neg h1, if_neg h2]
    exact ⟨_, rfl, by simp, by simp, by simp, by simp, by simp, by simp⟩

/-- C1 witness: the step specification discharged on a concrete FLAT
state and a concrete HOLD bar with close 100. -/
theorem C1_witness :
    (0:ℚ) < 100 ∧ StepSpec ["BUY"] ["SELL"] 0 0 (initState 1000) ⟨0, 100, "HOLD"⟩ :=
  ⟨by norm_num, C1_state_machine ["BUY"] ["SELL"] 0 0 (initState 1000) ⟨0, 100, "HOLD"⟩
    (by norm_num)⟩

/-! ## The forced liquidation after the last bar (claim C2) -/

lemma replaceLastEquity_spec (l : List (ℚ × ℚ)) (v : ℚ) (h : l ≠ []) :
    ∃ p, l.getLast? = some p ∧ replaceLastEquity l v = l.dropLast ++ [(p.1, v)] := by
  induction l with
  | nil => exact absurd rfl h
  | cons p ps ih =>
    cases ps with
    | nil => exact ⟨p, rfl, rfl⟩
    | cons q r =>
      obtain ⟨p', h1, h2⟩ := ih (by simp)
      refine ⟨p', ?_, ?_⟩
      · rw [List.getLast?_cons_cons]; exact h1
      · show p :: replaceLastEquity (q :: r) v = (p :: q :: r).dropLast ++ [(p'.1, v)]
        rw [h2]; rfl

/-- Specification of the forced liquidation, phrased from the spec: the
position is closed at the last bar's close with the same slippage and
commission treatment as a signal exit, a trade whose exit time is the
last bar's timestamp is appended, the state returns to FLAT, and the
last equity value (the timestamp kept) is overwritten with the
post-liquidation cash. -/
def ForcedExitSpec (slippage commission : ℚ) (bars : List Bar) (st : BTState)
    (lastBar : Bar) (ep et : ℚ) : Prop :=
  let eff := lastBar.close * (1 - slippage)
  let stF := forcedExit slippage commission bars st
  stF.cash = st.cash + (st.position * eff - st.position * eff * commission) ∧
  stF.position = 0 ∧ stF.entry_price = none ∧ stF.entry_time = none ∧
  stF.trades = st.trades ++ [⟨et, lastBar.ts, ep, eff, (eff - ep) / ep * 100,
    (lastBar.ts - et) / 3600⟩] ∧
  stF.pnls = st.pnls ++ [(eff - ep) / ep] ∧
  (∃ p, st.equity.getLast? = some p ∧
    stF.equity = st.equity.dropLast ++ [(p.1, stF.cash)])

lemma forcedExit_char (slippage commission : ℚ) (bars : List Bar) (st : BTState)
    (lastBar : Bar) (ep et : ℚ) (hlast : bars.getLast? = some lastBar)
    (hpos : 0 < st.position) (hep : st.entry_price = some ep)
    (het : st.entry_time = some et) (heq : st.equity ≠ []) :
    ForcedExitSpec slippage commission bars st lastBar ep et := by
  obtain ⟨p, hp1, hp2⟩ := replaceLastEquity_spec st.equity
    (st.cash + (st.position * (lastBar.close * (1 - slippage)) -
      st.position * (lastBar.close * (1 - slippage)) * commission)) heq
  rw [ForcedExitSpec]
  rw [forcedExit, if_pos hpos, hep, het, hlast]
  exact ⟨rfl, rfl, rfl, rfl, rfl, rfl, p, hp1, hp2⟩

/-- C2: whenever a position is still LONG after the last bar — whatever
that bar's signal — the run liquidates it at the last bar's close with
the signal-exit slippage and commission treatment, appends a trade whose
exit time is the last bar's timestamp, and overwrites the last equity
value with the post-liquidation cash. -/
theorem C2_forced_exit (slippage commission : ℚ) (bars : List Bar) (st : BTState)
    (lastBar : Bar) (ep et : ℚ) (hlast : bars.getLast? = some lastBar)
    (hpos : 0 < st.position) (hep : st.entry_price = some ep)
    (het : st.entry_time = some et) (heq : st.equity ≠ []) :
    ForcedExitSpec slippage commission bars st lastBar ep et :=
  forcedExit_char slippage commission bars st lastBar ep et hlast hpos hep het heq

/-- C2 witness: the forced-exit specification discharged on a concrete
LONG state holding two units entered at 40, over a one-bar series whose
close is 100. -/
theorem C2_witness :
    ForcedExitSpec 0 0 [⟨0, 100, "HOLD"⟩] ⟨7, 2, some 40, some 0, [], [], [(0, 50)], 50, 0⟩
      ⟨0, 100, "HOLD"⟩ 40 0 :=
  C2_forced_exit 0 0 [⟨0, 100, "HOLD"⟩] ⟨7, 2, some 40, some 0, [], [], [(0, 50)], 50, 0⟩
    ⟨0, 100, "HOLD"⟩ 40 0 (by decide) (by norm_num) rfl rfl (by simp)

/-! ## Scenario A of the specification

Close prices [100, 110, 115, 90, 88], signals [HOLD, BUY, SELL, BUY, SELL],
initial balance 1000 and the default rates slippage = 0.0005 = 1/2000 and
commission = 0.0007 = 7/10000, on an hourly (3600 s) index. -/

/-- The scenario A input frame. -/
def scenarioA : Frame :=
  ⟨true, true, [⟨0, 100, "HOLD"⟩, ⟨3600, 110, "BUY"⟩, ⟨7200, 115, "SELL"⟩,
    ⟨10800, 90, "BUY"⟩, ⟨14400, 88, "SELL"⟩]⟩

/-- The engine's run on scenario A with the default configuration. -/
def runA : Except String BTResult :=
  backtest_signals scenarioA 1000 ["BUY", "STRONG BUY"] ["SELL", "STRONG SELL"]
    (1/2000) (7/10000)

/-- The first trade of scenario A: entered at the BUY bar with close 110,
so at fill price 110 * 1.0005 = 110.055, exited at fill 115 * 0.9995. -/
def trA1 : Trade := ⟨3600, 7200, 22011/200, 45977/400, 4250/957, 1⟩

/-- The second trade of scenario A (entered at close 90, exited at 88). -/
def trA2 : Trade := ⟨10800, 14400, 18009/200, 21989/250, -41780/18009, 1⟩

/-- The replay state of scenario A after the final bar. -/
def stA5 : BTState :=
  ⟨491953572834739020721/483575000000000000, 0, none, none, [trA1, trA2],
    [85/1914, -2089/90045],
    [(0, 1000), (3600, 666200/667), (7200, 66540079317/63800000),
     (10800, 221645004204927/212773000000), (14400, 491953572834739020721/483575000000000000)],
    66540079317/63800000, -6144709171/250125000000⟩

/-- A value is approximately a reference value when it lies within one
percent of it; the slippage (0.05 percent) and commission (0.07 percent)
adjustments of a fill stay well inside this band. -/
def approxPct (x v : ℚ) : Prop := v - v / 100 ≤ x ∧ x ≤ v + v / 100

set_option maxHeartbeats 2000000 in
/-- Bar-by-bar evaluation of the engine on scenario A. -/
theorem runA_eq : runA = .ok ⟨computeMetrics 1000 stA5, stA5.trades, stA5.equity⟩ := by
  have hB : List.map stringUpper ["BUY", "STRONG BUY"] = ["BUY", "STRONG BUY"] := by decide
  have hS : List.map stringUpper ["SELL", "STRONG SELL"] = ["SELL", "STRONG SELL"] := by decide
  have hU : upperBars [⟨0, 100, "HOLD"⟩, ⟨3600, 110, "BUY"⟩, ⟨7200, 115, "SELL"⟩,
      ⟨10800, 90, "BUY"⟩, ⟨14400, 88, "SELL"⟩] =
      [⟨0, 100, "HOLD"⟩, ⟨3600, 110, "BUY"⟩, ⟨7200, 115, "SELL"⟩,
      ⟨10800, 90, "BUY"⟩, ⟨14400, 88, "SELL"⟩] := by decide
  have e1 : stepBar ["BUY", "STRONG BUY"] ["SELL", "STRONG SELL"] (1/2000) (7/10000)
      (initState 1000) ⟨0, 100, "HOLD"⟩ =
      .ok ⟨1000, 0, none, none, [], [], [(0, 1000)], 1000, 0⟩ := by
    norm_num [stepBar, pushEquity, initState]
    decide
  have e2 : stepBar ["BUY", "STRONG BUY"] ["SELL", "STRONG SELL"] (1/2000) (7/10000)
      ⟨1000, 0, none, none, [], [], [(0, 1000)], 1000, 0⟩ ⟨3600, 110, "BUY"⟩ =
      .ok ⟨0, 66620/7337, some (22011/200), some 3600, [], [],
        [(0, 1000), (3600, 666200/667)], 1000, -4/3335⟩ := by
    norm_num [stepBar, pushEquity]
  have e3 : stepBar ["BUY", "STRONG BUY"] ["SELL", "STRONG SELL"] (1/2000) (7/10000)
      ⟨0, 66620/7337, some (22011/200), some 3600, [], [],
        [(0, 1000), (3600, 666200/667)], 1000, -4/3335⟩ ⟨7200, 115, "SELL"⟩ =
      .ok ⟨66540079317/63800000, 0, none, none, [trA1], [85/1914],
        [(0, 1000), (3600, 666200/667), (7200, 66540079317/63800000)],
        66540079317/63800000, -4/3335⟩ := by
    norm_num [stepBar, pushEquity, trA1]
  have e4 : stepBar ["BUY", "STRONG BUY"] ["SELL", "STRONG SELL"] (1/2000) (7/10000)
      ⟨66540079317/63800000, 0, none, none, [trA1], [85/1914],
        [(0, 1000), (3600, 666200/667), (7200, 66540079317/63800000)],
        66540079317/63800000, -4/3335⟩ ⟨10800, 90, "BUY"⟩ =
      .ok ⟨0, 73881668068309/6383190000000, some (18009/200), some 10800, [trA1], [85/1914],
        [(0, 1000), (3600, 666200/667), (7200, 66540079317/63800000),
         (10800, 221645004204927/212773000000)],
        66540079317/63800000, -4/3335⟩ := by
    norm_num [stepBar, pushEquity, trA1]
  have e5 : stepBar ["BUY", "STRONG BUY"] ["SELL", "STRONG SELL"] (1/2000) (7/10000)
      ⟨0, 73881668068309/6383190000000, some (18009/200), some 10800, [trA1], [85/1914],
        [(0, 1000), (3600, 666200/667), (7200, 66540079317/63800000),
         (10800, 221645004204927/212773000000)],
        66540079317/63800000, -4/3335⟩ ⟨14400, 88, "SELL"⟩ = .ok stA5 := by
    norm_num [stepBar, pushEquity, trA1, trA2, stA5]
  have hrep : replay ["BUY", "STRONG BUY"] ["SELL", "STRONG SELL"] (1/2000) (7/10000)
      (initState 1000) [⟨0, 100, "HOLD"⟩, ⟨3600, 110, "BUY"⟩, ⟨7200, 115, "SELL"⟩,
        ⟨10800, 90, "BUY"⟩, ⟨14400, 88, "SELL"⟩] = .ok stA5 := by
    simp only [replay, e1, e2, e3, e4, e5]
  have hfx : forcedExit (1/2000) (7/10000) [⟨0, 100, "HOLD"⟩, ⟨3600, 110, "BUY"⟩,
      ⟨7200, 115, "SELL"⟩, ⟨10800, 90, "BUY"⟩, ⟨14400, 88, "SELL"⟩] stA5 = stA5 := by
    norm_num [forcedExit, stA5]
  rw [runA, backtest_signals]
  norm_num [scenarioA, hB, hS, hU, hrep, hfx]
  intro h
  exact absurd h (by simp)

/-- C8: corrected, counterexample part.  On scenario A the first trade of
the run is entered at fill price 110.055 = 22011/200 (the BUY bar's close
110 widened by slippage), which is not approximately 100 as the claim
states: it misses 100 by more than ten percent. -/
theorem C8_counterexample :
    runA.toOption.map (fun r => r.trades.head?.map Trade.entry_price) =
      some (some (22011/200)) ∧ ¬ approxPct (22011/200) 100 := by
  constructor
  · rw [runA_eq]
    simp [Except.toOption, stA5, trA1]
  · rw [approxPct]
    norm_num

/-- C8: corrected, amended claim.  On scenario A (closes
[100, 110, 115, 90, 88], signals [HOLD, BUY, SELL, BUY, SELL], initial
balance 1000) the engine produces exactly 2 trades; the first trade is
profitable with entry price approximately 110 (the close of the BUY bar)
and exit price approximately 115 before fees; net_return is strictly
positive and max_drawdown is at most 0. -/
theorem C8_amended :
    runA.toOption.map (fun r => r.metrics.total_trades) = some 2 ∧
    runA.toOption.map (fun r => r.trades.length) = some 2 ∧
    runA.toOption.map (fun r => r.trades.head?.map Trade.entry_price) = some (some (22011/200)) ∧
    approxPct (22011/200) 110 ∧
    runA.toOption.map (fun r => r.trades.head?.map Trade.exit_price) = some (some (45977/400)) ∧
    approxPct (45977/400) 115 ∧
    runA.toOption.map (fun r => r.trades.head?.map (fun t => decide (0 < t.pnl_pct))) =
      some (some true) ∧
    runA.toOption.map (fun r => decide (0 < r.metrics.net_return)) = some true ∧
    runA.toOption.map (fun r => decide (r.metrics.max_drawdown ≤ 0)) = some true := by
  rw [runA_eq]
  refine ⟨?_, ?_, ?_, ?_, ?_, ?_, ?_, ?_, ?_⟩
  · simp [Except.toOption, computeMetrics, stA5]
  · simp [Except.toOption, stA5]
  · simp [Except.toOption, stA5, trA1]
  · rw [approxPct]; norm_num
  · simp [Except.toOption, stA5, trA1]
  · rw [approxPct]; norm_num
  · simp [Except.toOption, stA5, trA1]
  · simp [Except.toOption]
    norm_num [computeMetrics, stA5]
  · simp [Except.toOption]
    norm_num [computeMetrics, stA5]

/-! ## Error conditions of the engine (claim C3) -/

/-- Replay invariant: while a position is open its entry price and entry
time are recorded. -/
def GoodState (st : BTState) : Prop :=
  st.position ≠ 0 → (∃ p, st.entry_price = some p) ∧ (∃ t, st.entry_time = some t)

/-- A bar with a positive close never fails, and preserves the replay
invariant. -/
lemma stepBar_ok_of_pos (buySet sellSet : List String) (slippage commission : ℚ)
    (st : BTState) (b : Bar) (hb : 0 < b.close) (hg : GoodState st) :
    ∃ st', stepBar buySet sellSet slippage commission st b = .ok st' ∧ GoodState st' := by
  have hcl : ¬ b.close ≤ 0 := not_le.mpr hb
  by_cases h1 : st.position = 0 ∧ b.signal ∈ buySet
  · rw [stepBar, if_neg hcl, if_pos h1]
    exact ⟨_, rfl, fun _ => ⟨⟨b.close * (1 + slippage), by simp⟩, ⟨b.ts, by simp⟩⟩⟩
  · by_cases h2 : 0 < st.position ∧ b.signal ∈ sellSet
    · obtain ⟨⟨p, hp⟩, ⟨t, ht⟩⟩ := hg (ne_of_gt h2.1)
      rw [stepBar, if_neg hcl, if_neg h1, if_pos h2, hp, ht]
      exact ⟨_, rfl, fun hne => absurd (by simp) hne⟩
    · rw [stepBar, if_neg hcl, if_neg h1, if_neg h2]
      refine ⟨_, rfl, fun hne => ?_⟩
      simp only [pushEquity_position] at hne
      simpa using hg hne
  
/-- A bar with a non-positive close fails the run at that bar. -/
lemma stepBar_err (buySet sellSet : List String) (slippage commission : ℚ)
    (st : BTState) (b : Bar) (hb : b.close ≤ 0) :
    stepBar buySet sellSet slippage commission st b =
      .error "Close prices must be positive for backtesting" := by
  rw [stepBar, if_pos hb]

/-- A replay over positive closes completes. -/
lemma replay_ok_of_pos (buySet sellSet : List String) (slippage commission : ℚ)
    (bars : List Bar) : ∀ st : BTState, GoodState st → (∀ b ∈ bars, 0 < b.close) →
    ∃ st', replay buySet sellSet slippage commission st bars = .ok st' ∧ GoodState st' := by
  induction bars with
  | nil => exact fun st hg _ => ⟨st, rfl, hg⟩
  | cons b bs ih =>
    intro st hg hpos
    obtain ⟨st1, h1, hg1⟩ := stepBar_ok_of_pos buySet sellSet slippage commission st b
      (hpos b (by simp)) hg
    obtain ⟨st', h2, hg2⟩ := ih st1 hg1 (fun x hx => hpos x (by simp [hx]))
    exact ⟨st', by rw [replay, h1]; exact h2, hg2⟩

/-- A replay over a series containing a non-positive close fails. -/
lemma replay_err (buySet sellSet : List String) (slippage commission : ℚ)
    (bars : List Bar) : ∀ st : BTState, GoodState st → (∃ b ∈ bars, b.close ≤ 0) →
    ∃ e, replay buySet sellSet slippage commission st bars = .error e := by
  induction bars with
  | nil => rintro st _ ⟨b, hb, _⟩; exact absurd hb (List.not_mem_nil b)
  | cons b bs ih =>
    rintro st hg ⟨x, hx, hxle⟩
    by_cases hb : b.close ≤ 0
    · exact ⟨_, by rw [replay, stepBar_err buySet sellSet slippage commission st b hb]⟩
    · obtain ⟨st1, h1, hg1⟩ := stepBar_ok_of_pos buySet sellSet slippage commission st b
        (not_le.mp hb) hg
      have hxbs : x ∈ bs := by
        rcases List.mem_cons.mp hx with h | h
        · exact absurd (h ▸ hxle) hb
        · exact h
      obtain ⟨e, he⟩ := ih st1 hg1 ⟨x, hxbs, hxle⟩
      exact ⟨e, by rw [replay, h1]; exact he⟩

/-- Membership in the uppercased bars, with timestamps and closes
untouched. -/
lemma upperBars_close (rows : List Bar) (b : Bar) :
    b ∈ upperBars rows ↔ ∃ a ∈ rows, a.ts = b.ts ∧ a.close = b.close ∧
      stringUpper a.signal = b.signal := by
  simp only [upperBars, List.mem_map]
  constructor
  · rintro ⟨a, ha, rfl⟩; exact ⟨a, ha, rfl, rfl, rfl⟩
  · rintro ⟨a, ha, h1, h2, h3⟩
    refine ⟨a, ha, ?_⟩
    cases b; cases a
    simp only at h1 h2 h3
    simp [h1, h2, h3]

/-- Specification of the error surface, phrased from the spec: the engine
raises exactly when the initial balance is not strictly positive, when a
non-empty input lacks the close or signal column, or when a non-positive
close occurs in the series; an error run returns no ledger, metrics or
equity data. -/
def ErrorSpec (df : Frame) (initial_balance : ℚ) (buy_signals sell_signals : List String)
    (slippage commission : ℚ) : Prop :=
  (∃ e, backtest_signals df initial_balance buy_signals sell_signals slippage commission =
      .error e) ↔
    (initial_balance ≤ 0 ∨
      (df.rows ≠ [] ∧ ¬(df.hasClose = true ∧ df.hasSignal = true)) ∨
      (df.rows ≠ [] ∧ ∃ b ∈ df.rows, b.close ≤ 0))

/-- C3: `backtest_signals` raises an error exactly when the initial
balance is not strictly positive, when the input is non-empty but lacks
the close or signal column, or when a non-positive close price occurs in
the series; in the error cases no partial ledger, metrics or equity
curve is returned (the result carries no data). -/
theorem C3_error_conditions (df : Frame) (initial_balance : ℚ)
    (buy_signals sell_signals : List String) (slippage commission : ℚ) :
    ErrorSpec df initial_balance buy_signals sell_signals slippage commission := by
  rw [ErrorSpec, backtest_signals]
  by_cases h1 : initial_balance ≤ 0
  · rw [if_pos h1]
    exact ⟨fun _ => .inl h1, fun _ => ⟨_, rfl⟩⟩
  · rw [if_neg h1]
    by_cases h2 : df.rows = []
    · rw [if_pos h2]
      constructor
      · rintro ⟨e, he⟩; exact absurd he (by simp)
      · rintro (h | ⟨h, _⟩ | ⟨h, _⟩)
        · exact absurd h h1
        · exact absurd h2 h
        · exact absurd h2 h
    · rw [if_neg h2]
      by_cases h3 : df.hasClose = true ∧ df.hasSignal = true
      · rw [if_neg (by simpa using h3)]
        by_cases h4 : ∃ b ∈ df.rows, b.close ≤ 0
        · obtain ⟨x, hx, hxle⟩ := h4
          have hup : ∃ b ∈ upperBars df.rows, b.close ≤ 0 := by
            refine ⟨⟨x.ts, x.close, stringUpper x.signal⟩, ?_, hxle⟩
            rw [upperBars_close]
            exact ⟨x, hx, rfl, rfl, rfl⟩
          obtain ⟨e, he⟩ := replay_err (buy_signals.map stringUpper)
            (sell_signals.map stringUpper) slippage commission (upperBars df.rows)
            (initState initial_balance) (fun h => absurd rfl h) hup
          simp only [he]
          exact ⟨fun _ => .inr (.inr ⟨h2, x, hx, hxle⟩), fun _ => ⟨e, rfl⟩⟩
        · have hpos : ∀ b ∈ upperBars df.rows, 0 < b.close := by
            intro b hb
            rw [upperBars_close] at hb
            obtain ⟨a, ha, _, hc, _⟩ := hb
            rcases lt_or_le 0 b.close with h | h
            · exact h
            · exact absurd ⟨a, ha, hc ▸ h⟩ h4
          obtain ⟨st, hst, _⟩ := replay_ok_of_pos (buy_signals.map stringUpper)
            (sell_signals.map stringUpper) slippage commission (upperBars df.rows)
            (initState initial_balance) (fun h => absurd rfl h) hpos
          simp only [hst]
          constructor
          · rintro ⟨e, he⟩; exact absurd he (by simp)
          · rintro (h | ⟨_, h⟩ | ⟨_, h⟩)
            · exact absurd h h1
            · exact absurd h3 h
            · exact absurd h h4
      · rw [if_pos (by simpa using h3)]
        exact ⟨fun _ => .inr (.inl ⟨h2, h3⟩), fun _ => ⟨_, rfl⟩⟩

/-- C3 witness: the error specification discharged on a concrete
one-bar frame with both columns, positive balance and positive close. -/
theorem C3_witness :
    ErrorSpec ⟨true, true, [⟨0, 100, "HOLD"⟩]⟩ 1000 ["BUY"] ["SELL"] 0 0 :=
  C3_error_conditions ⟨true, true, [⟨0, 100, "HOLD"⟩]⟩ 1000 ["BUY"] ["SELL"] 0 0

/-! ## The win/loss partition and ratio metrics (claim C4) -/

lemma filter_partition_length (l : List ℚ) :
    (l.filter (fun p => 0 < p)).length + (l.filter (fun p => p ≤ 0)).length = l.length := by
  induction l with
  | nil => rfl
  | cons x xs ih =>
    by_cases h : 0 < x
    · rw [List.filter_cons_of_pos (by simpa using h),
        List.filter_cons_of_neg (by simpa using not_le.mpr h)]
      simp only [List.length_cons]
      omega
    · rw [List.filter_cons_of_neg (by simpa using h),
        List.filter_cons_of_pos (by simpa using not_lt.mp h)]
      simp only [List.length_cons, List.length]
      omega

/-- C4: over any completed ledger the trade outcomes partition into wins
(positive percentage profit) and losses (zero counted as a loss);
profit_factor is the absolute ratio of summed winning to summed losing
percentages whenever the losing sum is nonzero, positive infinity when
wins exist and losses do not, and 0 when neither exists; win_loss_ratio
is the win count over the loss count whenever losses exist, positive
infinity when only wins exist, and 0 when neither exists.  Both metrics
are total values of the tagged MetricVal type, so a zero denominator
never raises and no NaN exists. -/
theorem C4_metrics (ib : ℚ) (st : BTState) :
    let pnls := st.pnls
    let wins := pnls.filter (fun p => 0 < p)
    let losses := pnls.filter (fun p => p ≤ 0)
    let m := computeMetrics ib st
    m.total_trades = pnls.length ∧
    (∀ p ∈ pnls, (p ∈ wins ↔ 0 < p) ∧ (p ∈ losses ↔ p ≤ 0)) ∧
    wins.length + losses.length = pnls.length ∧
    (losses.sum ≠ 0 → m.profit_factor = .fin |wins.sum / losses.sum|) ∧
    (wins ≠ [] → losses = [] → m.profit_factor = .posInf) ∧
    (wins = [] → losses = [] → m.profit_factor = .fin 0) ∧
    (losses ≠ [] → m.win_loss_ratio = .fin ((wins.length : ℚ) / losses.length)) ∧
    (wins ≠ [] → losses = [] → m.win_loss_ratio = .posInf) ∧
    (wins = [] → losses = [] → m.win_loss_ratio = .fin 0) := by
  intro pnls wins losses m
  refine ⟨rfl, ?_, filter_partition_length pnls, ?_, ?_, ?_, ?_, ?_, ?_⟩
  · intro p hp
    constructor
    · simp [wins, List.mem_filter, hp]
    · simp [losses, List.mem_filter, hp]
  · intro hsum
    have hne : losses ≠ [] := fun h => hsum (by rw [h]; rfl)
    show (if losses ≠ [] ∧ losses.sum ≠ 0 then MetricVal.fin |wins.sum / losses.sum|
      else if wins ≠ [] then .posInf else .fin 0) = .fin |wins.sum / losses.sum|
    rw [if_pos ⟨hne, hsum⟩]
  · intro hw hl
    show (if losses ≠ [] ∧ losses.sum ≠ 0 then MetricVal.fin |wins.sum / losses.sum|
      else if wins ≠ [] then .posInf else .fin 0) = .posInf
    rw [if_neg (fun h => h.1 hl), if_pos hw]
  · intro hw hl
    show (if losses ≠ [] ∧ losses.sum ≠ 0 then MetricVal.fin |wins.sum / losses.sum|
      else if wins ≠ [] then .posInf else .fin 0) = .fin 0
    rw [if_neg (fun h => h.1 hl), if_neg (fun h => h hw)]
  · intro hl
    show (if losses ≠ [] then MetricVal.fin ((wins.length : ℚ) / losses.length)
      else if wins ≠ [] then .posInf else .fin 0) = .fin ((wins.length : ℚ) / losses.length)
    rw [if_pos hl]
  · intro hw hl
    show (if losses ≠ [] then MetricVal.fin ((wins.length : ℚ) / losses.length)
      else if wins ≠ [] then .posInf else .fin 0) = .posInf
    rw [if_neg (fun h => h hl), if_pos hw]
  · intro hw hl
    show (if losses ≠ [] then MetricVal.fin ((wins.length : ℚ) / losses.length)
      else if wins ≠ [] then .posInf else .fin 0) = .fin 0
    rw [if_neg (fun h => h hl), if_neg (fun h => h hw)]

/-! ## Empty input (claims C6 and C10) -/

/-- Specification of the terminal result for an empty input frame,
phrased from the spec: the call succeeds, every metrics field is
zero-valued except the two balance fields which report the initial
balance, and the ledger and equity curve are empty. -/
def EmptyResultSpec (res : Except String BTResult) (ib : ℚ) : Prop :=
  ∃ r, res = .ok r ∧
    r.metrics.total_trades = 0 ∧ r.metrics.win_rate = 0 ∧ r.metrics.avg_gain = 0 ∧
    r.metrics.avg_loss = 0 ∧ r.metrics.profit_factor = .fin 0 ∧ r.metrics.net_return = 0 ∧
    r.metrics.max_drawdown = 0 ∧ r.metrics.final_balance = ib ∧ r.metrics.gross_gain = 0 ∧
    r.metrics.gross_loss = 0 ∧ r.metrics.best_trade = 0 ∧ r.metrics.worst_trade = 0 ∧
    r.metrics.win_loss_ratio = .fin 0 ∧ r.metrics.initial_balance = ib ∧
    r.metrics.avg_hold_hours = 0 ∧ r.metrics.median_hold_hours = 0 ∧
    r.metrics.exposure_pct = 0 ∧ r.trades = [] ∧ r.equity = []

/-- C6: an empty input frame is a defined terminal case for any positive
initial balance: the engine returns the zero-valued metrics record with
final_balance equal to the initial balance, an empty ledger and an empty
equity curve, and raises no error. -/
theorem C6_empty_input (df : Frame) (ib : ℚ) (bS sS : List String) (sl cm : ℚ)
    (hrows : df.rows = []) (hib : 0 < ib) :
    EmptyResultSpec (backtest_signals df ib bS sS sl cm) ib := by
  rw [EmptyResultSpec, backtest_signals, if_neg (not_le.mpr hib), if_pos hrows]
  exact ⟨_, rfl, rfl, rfl, rfl, rfl, rfl, rfl, rfl, rfl, rfl, rfl, rfl, rfl, rfl, rfl,
    rfl, rfl, rfl, rfl, rfl⟩

/-- C6 witness: the empty-input specification discharged at initial
balance 500 on an empty frame that has both required columns. -/
theorem C6_witness : EmptyResultSpec (backtest_signals ⟨true, true, []⟩ 500 [] [] 0 0) 500 :=
  C6_empty_input ⟨true, true, []⟩ 500 [] [] 0 0 rfl (by norm_num)

/-- C10: the empty-input check precedes the required-columns check: an
empty frame returns the zero-valued terminal result without raising even
when the close and signal columns are absent, for any column flags; the
missing-columns error can therefore only be raised for non-empty input. -/
theorem C10_empty_precedence (ib : ℚ) (hc hs : Bool) (bS sS : List String) (sl cm : ℚ)
    (hib : 0 < ib) :
    EmptyResultSpec (backtest_signals ⟨hc, hs, []⟩ ib bS sS sl cm) ib ∧
    ¬∃ e, backtest_signals ⟨hc, hs, []⟩ ib bS sS sl cm = .error e := by
  constructor
  · exact C6_empty_input ⟨hc, hs, []⟩ ib bS sS sl cm rfl hib
  · rw [backtest_signals, if_neg (not_le.mpr hib), if_pos rfl]
    rintro ⟨e, he⟩
    exact absurd he (by simp)

/-- C10 witness: the precedence discharged on an empty frame lacking both
columns at initial balance 500. -/
theorem C10_witness :
    EmptyResultSpec (backtest_signals ⟨false, false, []⟩ 500 ["BUY"] ["SELL"] 0 0) 500 ∧
    ¬∃ e, backtest_signals ⟨false, false, []⟩ 500 ["BUY"] ["SELL"] 0 0 = .error e :=
  C10_empty_precedence 500 false false ["BUY"] ["SELL"] 0 0 (by norm_num)

/-! ## Cash accounting and the equity curve (claim C7) -/

/-- The cash movement of one replay step: zero on a failing bar. -/
def stepDelta (buySet sellSet : List String) (slippage commission : ℚ)
    (st : BTState) (b : Bar) : ℚ :=
  match stepBar buySet sellSet slippage commission st b with
  | .ok st' => st'.cash - st.cash
  | .error _ => 0

/-- The per-bar cash movements of a replay, in order. -/
def runDeltas (buySet sellSet : List String) (slippage commission : ℚ) :
    BTState → List Bar → List ℚ
  | _, [] => []
  | st, b :: bs =>
    stepDelta buySet sellSet slippage commission st b ::
      (match stepBar buySet sellSet slippage commission st b with
       | .ok st' => runDeltas buySet sellSet slippage commission st' bs
       | .error _ => [])

/-- The cash movement of the forced liquidation. -/
def forcedDelta (slippage commission : ℚ) (bars : List Bar) (st : BTState) : ℚ :=
  (forcedExit slippage commission bars st).cash - st.cash

lemma stepBar_equity (buySet sellSet : List String) (slippage commission : ℚ)
    (st : BTState) (b : Bar) (st' : BTState)
    (h : stepBar buySet sellSet slippage commission st b = .ok st') :
    st'.equity = st.equity ++ [(b.ts, st'.cash + st'.position * b.close)] := by
  by_cases h1 : b.close ≤ 0
  · rw [stepBar, if_pos h1] at h; exact absurd h (by simp)
  by_cases h2 : st.position = 0 ∧ b.signal ∈ buySet
  · rw [stepBar, if_neg h1, if_pos h2] at h
    injection h with h; subst h; simp
  by_cases h3 : 0 < st.position ∧ b.signal ∈ sellSet
  · rw [stepBar, if_neg h1, if_neg h2, if_pos h3] at h
    cases hpe : st.entry_price with
    | none => rw [hpe] at h; exact absurd h (by simp)
    | some ep =>
      cases hte : st.entry_time with
      | none => rw [hpe, hte] at h; exact absurd h (by simp)
      | some et =>
        rw [hpe, hte] at h
        injection h with h; subst h; simp
  · rw [stepBar, if_neg h1, if_neg h2, if_neg h3] at h
    injection h with h; subst h; simp

lemma replay_cash (buySet sellSet : List String) (slippage commission : ℚ)
    (bars : List Bar) : ∀ st st' : BTState,
    replay buySet sellSet slippage commission st bars = .ok st' →
    st'.cash = st.cash + (runDeltas buySet sellSet slippage commission st bars).sum := by
  induction bars with
  | nil =>
    intro st st' h
    injection h with h; subst h; simp [runDeltas]
  | cons b bs ih =>
    intro st st' h
    rw [replay] at h
    cases hs : stepBar buySet sellSet slippage commission st b with
    | error e => rw [hs] at h; exact absurd h (by simp)
    | ok st1 =>
      rw [hs] at h
      have := ih st1 st' h
      rw [runDeltas, stepDelta, hs]
      simp only [List.sum_cons]
      rw [this]
      ring

lemma replay_equity_last (buySet sellSet : List String) (slippage commission : ℚ)
    (bars : List Bar) (hne : bars ≠ []) : ∀ st st' : BTState,
    replay buySet sellSet slippage commission st bars = .ok st' →
    ∃ lastBar, bars.getLast? = some lastBar ∧
      st'.equity.getLast? = some (lastBar.ts, st'.cash + st'.position * lastBar.close) := by
  induction bars with
  | nil => exact absurd rfl hne
  | cons b bs ih =>
    intro st st' h
    rw [replay] at h
    cases hs : stepBar buySet sellSet slippage commission st b with
    | error e => rw [hs] at h; exact absurd h (by simp)
    | ok st1 =>
      rw [hs] at h
      cases bs with
      | nil =>
        injection h with h; subst h
        refine ⟨b, rfl, ?_⟩
        rw [stepBar_equity buySet sellSet slippage commission st b st1 hs]
        simp
      | cons q r =>
        obtain ⟨lb, h1, h2⟩ := ih (by simp) st1 st' h
        exact ⟨lb, by rw [List.getLast?_cons_cons]; exact h1, h2⟩

lemma stepBar_nonneg (buySet sellSet : List String) (slippage commission : ℚ)
    (st : BTState) (b : Bar) (st' : BTState)
    (h : stepBar buySet sellSet slippage commission st b = .ok st')
    (hb : 0 < b.close) (hsl0 : 0 ≤ slippage) (hsl1 : slippage ≤ 1)
    (hcm0 : 0 ≤ commission) (hcm1 : commission ≤ 1)
    (hc : 0 ≤ st.cash) (hp : 0 ≤ st.position) :
    0 ≤ st'.cash ∧ 0 ≤ st'.position := by
  have he : (0:ℚ) < b.close * (1 + slippage) := by nlinarith
  by_cases h1 : b.close ≤ 0
  · rw [stepBar, if_pos h1] at h; exact absurd h (by simp)
  by_cases h2 : st.position = 0 ∧ b.signal ∈ buySet
  · rw [stepBar, if_neg h1, if_pos h2] at h
    injection h with h; subst h
    constructor
    · simp only [pushEquity_cash]
      rw [div_mul_cancel₀ _ (ne_of_gt he)]
      simp
    · simp only [pushEquity_position]
      apply div_nonneg _ (le_of_lt he)
      nlinarith
  by_cases h3 : 0 < st.position ∧ b.signal ∈ sellSet
  · rw [stepBar, if_neg h1, if_neg h2, if_pos h3] at h
    cases hpe : st.entry_price with
    | none => rw [hpe] at h; exact absurd h (by simp)
    | some ep =>
      cases hte : st.entry_time with
      | none => rw [hpe, hte] at h; exact absurd h (by simp)
      | some et =>
        rw [hpe, hte] at h
        injection h with h; subst h
        constructor
        · simp only [pushEquity_cash]
          have hg : 0 ≤ st.position * (b.close * (1 - slippage)) :=
            mul_nonneg (le_of_lt h3.1) (mul_nonneg (le_of_lt hb) (by linarith))
          nlinarith
        · simp
  · rw [stepBar, if_neg h1, if_neg h2, if_neg h3] at h
    injection h with h; subst h
    exact ⟨by simpa using hc, by simpa using hp⟩

lemma replay_nonneg (buySet sellSet : List String) (slippage commission : ℚ)
    (bars : List Bar) (hsl0 : 0 ≤ slippage) (hsl1 : slippage ≤ 1)
    (hcm0 : 0 ≤ commission) (hcm1 : commission ≤ 1) : ∀ st st' : BTState,
    replay buySet sellSet slippage commission st bars = .ok st' →
    (∀ b ∈ bars, 0 < b.close) → 0 ≤ st.cash → 0 ≤ st.position →
    0 ≤ st'.cash ∧ 0 ≤ st'.position := by
  induction bars with
  | nil =>
    intro st st' h _ hc hp
    injection h with h; subst h; exact ⟨hc, hp⟩
  | cons b bs ih =>
    intro st st' h hpos hc hp
    rw [replay] at h
    cases hs : stepBar buySet sellSet slippage commission st b with
    | error e => rw [hs] at h; exact absurd h (by simp)
    | ok st1 =>
      rw [hs] at h
      obtain ⟨hc1, hp1⟩ := stepBar_nonneg buySet sellSet slippage commission st b st1 hs
        (hpos b (by simp)) hsl0 hsl1 hcm0 hcm1 hc hp
      exact ih st1 st' h (fun x hx => hpos x (by simp [hx])) hc1 hp1


/-- Specification of the accounting identity, phrased from the spec: the
run succeeds, the reported final balance is the initial balance plus the
sum of all per-bar cash deltas plus the forced-liquidation delta, the
last value of the returned equity curve equals that final balance, and a
bar that triggers neither an entry nor an exit moves no cash. -/
def AccountingSpec (df : Frame) (initial_balance : ℚ) (buy_signals sell_signals : List String)
    (slippage commission : ℚ) : Prop :=
  let buySet := buy_signals.map stringUpper
  let sellSet := sell_signals.map stringUpper
  let bars := upperBars df.rows
  ∃ r st, backtest_signals df initial_balance buy_signals sell_signals slippage commission =
      .ok r ∧
    replay buySet sellSet slippage commission (initState initial_balance) bars = .ok st ∧
    r.metrics.final_balance =
      initial_balance + ((runDeltas buySet sellSet slippage commission
        (initState initial_balance) bars).sum + forcedDelta slippage commission bars st) ∧
    r.equity.getLast?.map Prod.snd = some r.metrics.final_balance ∧
    (∀ st₀ b, ¬(st₀.position = 0 ∧ b.signal ∈ buySet) →
      ¬(0 < st₀.position ∧ b.signal ∈ sellSet) →
      stepDelta buySet sellSet slippage commission st₀ b = 0)

/-- C7: for every non-empty valid input (positive balance, both required
columns, positive closes, fractional slippage and commission rates) the
reported final_balance equals the initial balance plus the sum of all
cash deltas of the replay (which are nonzero only at trade entries and
exits) plus the forced-exit delta, and equals the last value of the
returned equity curve, whose last point is the post-liquidation cash
after a forced exit and the mark-to-market cash otherwise. -/
theorem C7_accounting (df : Frame) (initial_balance : ℚ)
    (buy_signals sell_signals : List String) (slippage commission : ℚ)
    (hib : 0 < initial_balance) (hrows : df.rows ≠ [])
    (hc : df.hasClose = true) (hsg : df.hasSignal = true)
    (hpos : ∀ b ∈ df.rows, 0 < b.close)
    (hsl0 : 0 ≤ slippage) (hsl1 : slippage ≤ 1)
    (hcm0 : 0 ≤ commission) (hcm1 : commission ≤ 1) :
    AccountingSpec df initial_balance buy_signals sell_signals slippage commission := by
  rw [AccountingSpec]
  set buySet := buy_signals.map stringUpper with hbdef
  set sellSet := sell_signals.map stringUpper with hsdef
  set bars := upperBars df.rows with hbarsdef
  have hbpos : ∀ b ∈ bars, 0 < b.close := by
    intro b hb
    rw [upperBars_close] at hb
    obtain ⟨a, ha, _, hcc, _⟩ := hb
    exact hcc ▸ hpos a ha
  obtain ⟨st, hrep, hgood⟩ := replay_ok_of_pos buySet sellSet slippage commission bars
    (initState initial_balance) (fun h => absurd rfl h) hbpos
  obtain ⟨hcash, hposn⟩ := replay_nonneg buySet sellSet slippage commission bars
    hsl0 hsl1 hcm0 hcm1 (initState initial_balance) st hrep hbpos
    (le_of_lt hib) le_rfl
  have hbne : bars ≠ [] := by
    rw [hbarsdef]
    simp only [upperBars]
    intro h
    exact hrows (List.map_eq_nil_iff.mp h)
  obtain ⟨lastBar, hlast, heqlast⟩ := replay_equity_last buySet sellSet slippage commission
    bars hbne (initState initial_balance) st hrep
  have hfinal : st.cash = initial_balance +
      (runDeltas buySet sellSet slippage commission (initState initial_balance) bars).sum :=
    replay_cash buySet sellSet slippage commission bars (initState initial_balance) st hrep
  have hbt : backtest_signals df initial_balance buy_signals sell_signals slippage commission =
      .ok ⟨computeMetrics initial_balance (forcedExit slippage commission bars st),
        (forcedExit slippage commission bars st).trades,
        (forcedExit slippage commission bars st).equity⟩ := by
    rw [backtest_signals, if_neg (not_le.mpr hib), if_neg hrows,
      if_neg (by simp [hc, hsg])]
    simp only [hrep]
  refine ⟨_, st, hbt, hrep, ?_, ?_, ?_⟩
  · show (computeMetrics initial_balance (forcedExit slippage commission bars st)).final_balance
      = _
    have : (computeMetrics initial_balance
        (forcedExit slippage commission bars st)).final_balance =
      (forcedExit slippage commission bars st).cash := rfl
    rw [this, forcedDelta]
    rw [hfinal]
    ring
  · show (forcedExit slippage commission bars st).equity.getLast?.map Prod.snd =
      some (computeMetrics initial_balance (forcedExit slippage commission bars st)).final_balance
    have hfb : (computeMetrics initial_balance
        (forcedExit slippage commission bars st)).final_balance =
      (forcedExit slippage commission bars st).cash := rfl
    rw [hfb]
    by_cases hopen : 0 < st.position
    · obtain ⟨⟨ep, hep⟩, ⟨et, het⟩⟩ := hgood (ne_of_gt hopen)
      have hne : st.equity ≠ [] := by
        intro h
        rw [h] at heqlast
        exact absurd heqlast (by simp)
      obtain ⟨_, _, _, _, _, _, p, hp1, hp2⟩ :=
        forcedExit_char slippage commission bars st lastBar ep et hlast hopen hep het hne
      rw [hp2]
      simp
    · have hz : st.position = 0 := le_antisymm (not_lt.mp hopen) hposn
      have hfx : forcedExit slippage commission bars st = st := by
        rw [forcedExit, if_neg hopen]
      rw [hfx, heqlast, hz]
      simp
  · intro st₀ b hn1 hn2
    rw [stepDelta]
    by_cases hb : b.close ≤ 0
    · rw [stepBar_err buySet sellSet slippage commission st₀ b hb]
    · rw [stepBar, if_neg hb, if_neg hn1, if_neg hn2]
      simp

/-- C7 witness: the accounting specification discharged on a one-bar
HOLD series at initial balance 100 with zero rates. -/
theorem C7_witness :
    AccountingSpec ⟨true, true, [⟨0, 100, "HOLD"⟩]⟩ 100 ["BUY"] ["SELL"] 0 0 :=
  C7_accounting ⟨true, true, [⟨0, 100, "HOLD"⟩]⟩ 100 ["BUY"] ["SELL"] 0 0
    (by norm_num) (by simp) rfl rfl (by decide) le_rfl (by norm_num) le_rfl (by norm_num)

/-! ## Embedding of the signal deriver (src/signalbot/strategy.py)

The indicator pipeline of indicators.py is embedded over a close series
modelled as a list of rationals; NaN warm-up cells of the oscillator
(RSI) are `none`.  Pandas comparisons against NaN are false, which the
Option comparators reproduce; the input is taken in its sorted order
(the code sorts by index first). -/

/-- The recursion of pandas `ewm(adjust=False).mean()` after the first
observation: y = (1 - alpha) * prev + alpha * x. -/
def ewmRun (alpha prev : ℚ) : List ℚ → List ℚ
  | [] => []
  | x :: xs =>
    let y := (1 - alpha) * prev + alpha * x
    y :: ewmRun alpha y xs

/-- Exponentially weighted mean with `adjust=False`: the first value is
the first observation. -/
def ewmAdjFalse (alpha : ℚ) : List ℚ → List ℚ
  | [] => []
  | x :: xs => x :: ewmRun alpha x xs

/-- The `ema` of indicators.py line 25: `ewm(span=length, adjust=False)`,
so alpha = 2 / (length + 1). -/
def emaL (length : ℕ) (xs : List ℚ) : List ℚ :=
  ewmAdjFalse (2 / ((length : ℚ) + 1)) xs

/-- The Wilder RSI of indicators.py lines 10-22 over the close series:
gains and losses from one-bar differences, exponentially weighted with
alpha = 1/period and `min_periods=period` (so the first `period` rows
are NaN), a zero average loss replaced by 1e-10, and
rsi = 100 - 100 / (1 + rs). -/
def rsiList (period : ℕ) (xs : List ℚ) : List (Option ℚ) :=
  let deltas := List.zipWith (fun b a => b - a) xs.tail xs
  let gains := deltas.map (fun d => max d 0)
  let losses := deltas.map (fun d => max (-d) 0)
  let avg_gain := ewmAdjFalse (1 / (period : ℚ)) gains
  let avg_loss := ewmAdjFalse (1 / (period : ℚ)) losses
  (List.range xs.length).map fun i =>
    if i = 0 ∨ i < period then none
    else
      let ag := avg_gain.getD (i - 1) 0
      let al := avg_loss.getD (i - 1) 0
      let rs := ag / (if al = 0 then 1 / 10000000000 else al)
      some (100 - 100 / (1 + rs))

/-- Less-than on possibly-NaN cells: any comparison with NaN is false,
as in pandas. -/
def obLT : Option ℚ → Option ℚ → Bool
  | some a, some b => decide (a < b)
  | _, _ => false

/-- Less-or-equal on possibly-NaN cells: any comparison with NaN is
false, as in pandas. -/
def obLE : Option ℚ → Option ℚ → Bool
  | some a, some b => decide (a ≤ b)
  | _, _ => false

/-- The sequential `.loc` assignments to `out["signal"]` of strategy.py
lines 57-72: HOLD, overwritten by BUY on the buy mask, by SELL on the
sell mask, then upgraded to the STRONG variants on the MACD crosses. -/
def signalChain (buy sell up down : Bool) : String :=
  let s1 := if buy then "BUY" else "HOLD"
  let s2 := if sell then "SELL" else s1
  let s3 := if buy && up then "STRONG BUY" else s2
  if sell && down then "STRONG SELL" else s3

/-- The sequential assignments to `out["signal_strength"]` of strategy.py
lines 58-74. -/
def strengthChain (buy sell up down : Bool) : String :=
  let s1 := if buy then "BUY" else "NEUTRAL"
  let s2 := if sell then "SELL" else s1
  let s3 := if buy && up then "BULLISH" else s2
  if sell && down then "BEARISH" else s3

/-- One output row of `rsi_signal`: the indicator columns added to the
frame plus the signal, strength and divergence annotations. -/
structure SignalRow where
  close : ℚ
  rsi : Option ℚ
  ema_fast : ℚ
  ema_slow : ℚ
  macd : ℚ
  macd_signal : ℚ
  macd_histogram : ℚ
  signal : String
  signal_strength : String
  divergence : Option String
deriving Repr, DecidableEq

/-- The out-of-range placeholder row used by the getD accessors. -/
def defaultRow : SignalRow := ⟨0, none, 0, 0, 0, 0, 0, "HOLD", "NEUTRAL", none⟩

/-- The value of the `rsi` column at row i. -/
def rsiAt (period : ℕ) (closes : List ℚ) (i : ℕ) : Option ℚ :=
  (rsiList period closes).getD i none

/-- The value of `rsi.shift(1)` at row i: NaN on the first row. -/
def prevRsiAt (period : ℕ) (closes : List ℚ) (i : ℕ) : Option ℚ :=
  if i = 0 then none else rsiAt period closes (i - 1)

/-- The value of the `ema_fast` column at row i. -/
def emaFastAt (ema_fast_period : ℕ) (closes : List ℚ) (i : ℕ) : ℚ :=
  (emaL ema_fast_period closes).getD i 0

/-- The value of the `ema_slow` column at row i. -/
def emaSlowAt (ema_slow_period : ℕ) (closes : List ℚ) (i : ℕ) : ℚ :=
  (emaL ema_slow_period closes).getD i 0

/-- The MACD line of indicators.py line 49: fast EMA minus slow EMA. -/
def macdLineL (ema_fast_period ema_slow_period : ℕ) (closes : List ℚ) : List ℚ :=
  List.zipWith (fun a b => a - b) (emaL ema_fast_period closes) (emaL ema_slow_period closes)

/-- The MACD signal line of indicators.py line 50: EMA of the MACD line
with span 9 (the signal argument `rsi_signal` passes). -/
def macdSigL (ema_fast_period ema_slow_period : ℕ) (closes : List ℚ) : List ℚ :=
  ewmAdjFalse (2 / ((9 : ℚ) + 1)) (macdLineL ema_fast_period ema_slow_period closes)

/-- The value of the `macd` column at row i. -/
def macdAt (ema_fast_period ema_slow_period : ℕ) (closes : List ℚ) (i : ℕ) : ℚ :=
  (macdLineL ema_fast_period ema_slow_period closes).getD i 0

/-- The value of the `macd_signal` column at row i. -/
def macdSigAt (ema_fast_period ema_slow_period : ℕ) (closes : List ℚ) (i : ℕ) : ℚ :=
  (macdSigL ema_fast_period ema_slow_period closes).getD i 0

/-- The buy mask of strategy.py lines 46 and 60: previous RSI below the
oversold threshold, current RSI at or above it, fast EMA above slow EMA,
and both RSI cells defined. -/
def buyMask (period : ℕ) (oversold : ℚ) (fp sp : ℕ) (closes : List ℚ) (i : ℕ) : Bool :=
  obLT (prevRsiAt period closes i) (some oversold) &&
    obLE (some oversold) (rsiAt period closes i) &&
    decide (emaSlowAt sp closes i < emaFastAt fp closes i) &&
    (rsiAt period closes i).isSome && (prevRsiAt period closes i).isSome

/-- The sell mask of strategy.py lines 47 and 61: the symmetric downward
cross through the overbought threshold with fast EMA below slow EMA. -/
def sellMask (period : ℕ) (overbought : ℚ) (fp sp : ℕ) (closes : List ℚ) (i : ℕ) : Bool :=
  obLT (some overbought) (prevRsiAt period closes i) &&
    obLE (rsiAt period closes i) (some overbought) &&
    decide (emaFastAt fp closes i < emaSlowAt sp closes i) &&
    (rsiAt period closes i).isSome && (prevRsiAt period closes i).isSome

/-- The MACD upward cross of strategy.py line 51: previous MACD below the
previous signal line and current MACD above the current signal line. -/
def macdUpMask (fp sp : ℕ) (closes : List ℚ) (i : ℕ) : Bool :=
  obLT (if i = 0 then none else some (macdAt fp sp closes (i - 1)))
      (if i = 0 then none else some (macdSigAt fp sp closes (i - 1))) &&
    decide (macdSigAt fp sp closes i < macdAt fp sp closes i)

/-- The MACD downward cross of strategy.py line 52. -/
def macdDownMask (fp sp : ℕ) (closes : List ℚ) (i : ℕ) : Bool :=
  obLT (if i = 0 then none else some (macdSigAt fp sp closes (i - 1)))
      (if i = 0 then none else some (macdAt fp sp closes (i - 1))) &&
    decide (macdAt fp sp closes i < macdSigAt fp sp closes i)

/-- The divergence heuristic of strategy.py lines 77-90: BEARISH on two
consecutive higher closes with two consecutive lower RSI values, then
overwritten by BULLISH on the symmetric pattern; informational only. -/
def divergenceAt (period : ℕ) (closes : List ℚ) (i : ℕ) : Option String :=
  let pr := closes.getD i 0
  let p1 : Option ℚ := if i = 0 then none else some (closes.getD (i - 1) 0)
  let p2 : Option ℚ := if i < 2 then none else some (closes.getD (i - 2) 0)
  let r1 : Option ℚ := if i = 0 then none else rsiAt period closes (i - 1)
  let r2 : Option ℚ := if i < 2 then none else rsiAt period closes (i - 2)
  let higher_high := obLT p1 (some pr) && obLT p2 p1
  let lower_high := obLT (rsiAt period closes i) r1 && obLT r1 r2
  let bearish := higher_high && lower_high
  let lower_low := obLT (some pr) p1 && obLT p1 p2
  let higher_low := obLT r1 (rsiAt period closes i) && obLT r2 r1
  let bullish := lower_low && higher_low
  let d1 : Option String := if bearish then some "BEARISH" else none
  if bullish then some "BULLISH" else d1

/-- Row i of the enriched output frame of `rsi_signal`. -/
def mkRow (period : ℕ) (oversold overbought : ℚ) (fp sp : ℕ)
    (closes : List ℚ) (i : ℕ) : SignalRow where
  close := closes.getD i 0
  rsi := rsiAt period closes i
  ema_fast := emaFastAt fp closes i
  ema_slow := emaSlowAt sp closes i
  macd := macdAt fp sp closes i
  macd_signal := macdSigAt fp sp closes i
  macd_histogram := macdAt fp sp closes i - macdSigAt fp sp closes i
  signal := signalChain (buyMask period oversold fp sp closes i)
    (sellMask period overbought fp sp closes i)
    (macdUpMask fp sp closes i) (macdDownMask fp sp closes i)
  signal_strength := strengthChain (buyMask period oversold fp sp closes i)
    (sellMask period overbought fp sp closes i)
    (macdUpMask fp sp closes i) (macdDownMask fp sp closes i)
  divergence := divergenceAt period closes i

/-- Embedding of `rsi_signal` (strategy.py lines 8-92): an empty input
returns an empty copy; otherwise every row receives the indicator
columns and the signal assignments. -/
def rsi_signal (period : ℕ) (oversold overbought : ℚ)
    (ema_fast_period ema_slow_period : ℕ) (closes : List ℚ) : List SignalRow :=
  if closes.isEmpty then []
  else (List.range closes.length).map
    (mkRow period oversold overbought ema_fast_period ema_slow_period closes)



/-! ## Lemmas about the comparators and row access -/

lemma obLT_some_right (a : Option ℚ) (c : ℚ) :
    obLT a (some c) = true ↔ ∃ x, a = some x ∧ x < c := by
  cases a <;> simp [obLT]

lemma obLT_some_left (c : ℚ) (a : Option ℚ) :
    obLT (some c) a = true ↔ ∃ x, a = some x ∧ c < x := by
  cases a <;> simp [obLT]

lemma obLE_some_left (c : ℚ) (a : Option ℚ) :
    obLE (some c) a = true ↔ ∃ x, a = some x ∧ c ≤ x := by
  cases a <;> simp [obLE]

lemma obLE_some_right (a : Option ℚ) (c : ℚ) :
    obLE a (some c) = true ↔ ∃ x, a = some x ∧ x ≤ c := by
  cases a <;> simp [obLE]

lemma getD_range_map {α : Type} (n : ℕ) (f : ℕ → α) (i : ℕ) (h : i < n) (d : α) :
    ((List.range n).map f).getD i d = f i := by
  rw [List.getD_eq_getElem?_getD, List.getElem?_map, List.getElem?_range h]
  rfl

lemma getD_range_map_ge {α : Type} (n : ℕ) (f : ℕ → α) (i : ℕ) (h : n ≤ i) (d : α) :
    ((List.range n).map f).getD i d = d := by
  rw [List.getD_eq_getElem?_getD, List.getElem?_eq_none]
  · rfl
  · simpa using h

/-- Resolution of the sequential signal assignments: with the two masks
never simultaneously true, each of the five signal values holds exactly
under the stated mask combination. -/
lemma signalChain_spec : ∀ b s u d : Bool, ¬(b = true ∧ s = true) →
    ((signalChain b s u d = "BUY" ∨ signalChain b s u d = "STRONG BUY") ↔ b = true) ∧
    ((signalChain b s u d = "SELL" ∨ signalChain b s u d = "STRONG SELL") ↔ s = true) ∧
    (signalChain b s u d = "STRONG BUY" ↔ (b = true ∧ u = true)) ∧
    (signalChain b s u d = "STRONG SELL" ↔ (s = true ∧ d = true)) ∧
    (signalChain b s u d = "HOLD" ↔ (¬ b = true ∧ ¬ s = true)) := by decide

lemma signalChain_hold : ∀ u d : Bool, signalChain false false u d = "HOLD" := by decide

lemma buyMask_iff (period : ℕ) (oversold : ℚ) (fp sp : ℕ) (closes : List ℚ) (i : ℕ) :
    buyMask period oversold fp sp closes i = true ↔
      ((∃ p r, prevRsiAt period closes i = some p ∧ rsiAt period closes i = some r ∧
        p < oversold ∧ oversold ≤ r) ∧ emaSlowAt sp closes i < emaFastAt fp closes i) := by
  rw [buyMask]
  simp only [Bool.and_eq_true]
  constructor
  · rintro ⟨⟨⟨⟨hlt, hle⟩, hef⟩, _⟩, _⟩
    obtain ⟨p, hp, h1⟩ := (obLT_some_right _ _).mp hlt
    obtain ⟨r, hr, h2⟩ := (obLE_some_left _ _).mp hle
    exact ⟨⟨p, r, hp, hr, h1, h2⟩, of_decide_eq_true hef⟩
  · rintro ⟨⟨p, r, hp, hr, h1, h2⟩, hef⟩
    refine ⟨⟨⟨⟨(obLT_some_right _ _).mpr ⟨p, hp, h1⟩,
      (obLE_some_left _ _).mpr ⟨r, hr, h2⟩⟩, decide_eq_true hef⟩, ?_⟩, ?_⟩
    · rw [hr]; rfl
    · rw [hp]; rfl

lemma sellMask_iff (period : ℕ) (overbought : ℚ) (fp sp : ℕ) (closes : List ℚ) (i : ℕ) :
    sellMask period overbought fp sp closes i = true ↔
      ((∃ p r, prevRsiAt period closes i = some p ∧ rsiAt period closes i = some r ∧
        overbought < p ∧ r ≤ overbought) ∧ emaFastAt fp closes i < emaSlowAt sp closes i) := by
  rw [sellMask]
  simp only [Bool.and_eq_true]
  constructor
  · rintro ⟨⟨⟨⟨hlt, hle⟩, hef⟩, _⟩, _⟩
    obtain ⟨p, hp, h1⟩ := (obLT_some_left _ _).mp hlt
    obtain ⟨r, hr, h2⟩ := (obLE_some_right _ _).mp hle
    exact ⟨⟨p, r, hp, hr, h1, h2⟩, of_decide_eq_true hef⟩
  · rintro ⟨⟨p, r, hp, hr, h1, h2⟩, hef⟩
    refine ⟨⟨⟨⟨(obLT_some_left _ _).mpr ⟨p, hp, h1⟩,
      (obLE_some_right _ _).mpr ⟨r, hr, h2⟩⟩, decide_eq_true hef⟩, ?_⟩, ?_⟩
    · rw [hr]; rfl
    · rw [hp]; rfl

lemma macdUpMask_iff (fp sp : ℕ) (closes : List ℚ) (i : ℕ) :
    macdUpMask fp sp closes i = true ↔
      (i ≠ 0 ∧ macdAt fp sp closes (i - 1) < macdSigAt fp sp closes (i - 1) ∧
        macdSigAt fp sp closes i < macdAt fp sp closes i) := by
  rw [macdUpMask]
  by_cases h : i = 0
  · simp [h, obLT]
  · simp [h, obLT]

lemma macdDownMask_iff (fp sp : ℕ) (closes : List ℚ) (i : ℕ) :
    macdDownMask fp sp closes i = true ↔
      (i ≠ 0 ∧ macdSigAt fp sp closes (i - 1) < macdAt fp sp closes (i - 1) ∧
        macdAt fp sp closes i < macdSigAt fp sp closes i) := by
  rw [macdDownMask]
  by_cases h : i = 0
  · simp [h, obLT]
  · simp [h, obLT]


/-- Specification of the signal rules, phrased from the spec: at every
row, BUY (plain or strong) holds exactly on an upward oversold cross
with the fast trend line above the slow one; SELL is the symmetric
downward overbought cross with fast below slow; the STRONG upgrade
happens exactly when the MACD line crosses its signal line in the same
direction at the same bar; every other row is HOLD. -/
def SignalRulesSpec (period : ℕ) (oversold overbought : ℚ) (fp sp : ℕ)
    (closes : List ℚ) (i : ℕ) : Prop :=
  let out := rsi_signal period oversold overbought fp sp closes
  let row := out.getD i defaultRow
  let prow := out.getD (i - 1) defaultRow
  let pRsi : Option ℚ := if i = 0 then none else prow.rsi
  let buyCond : Prop := (∃ p r, pRsi = some p ∧ row.rsi = some r ∧
    p < oversold ∧ oversold ≤ r) ∧ row.ema_slow < row.ema_fast
  let sellCond : Prop := (∃ p r, pRsi = some p ∧ row.rsi = some r ∧
    overbought < p ∧ r ≤ overbought) ∧ row.ema_fast < row.ema_slow
  let macdUp : Prop := i ≠ 0 ∧ prow.macd < prow.macd_signal ∧ row.macd_signal < row.macd
  let macdDown : Prop := i ≠ 0 ∧ prow.macd_signal < prow.macd ∧ row.macd < row.macd_signal
  ((row.signal = "BUY" ∨ row.signal = "STRONG BUY") ↔ buyCond) ∧
  ((row.signal = "SELL" ∨ row.signal = "STRONG SELL") ↔ sellCond) ∧
  (row.signal = "STRONG BUY" ↔ (buyCond ∧ macdUp)) ∧
  (row.signal = "STRONG SELL" ↔ (sellCond ∧ macdDown)) ∧
  (row.signal = "HOLD" ↔ (¬buyCond ∧ ¬sellCond))

/-- The five signal rules hold vacuously at the placeholder row. -/
lemma default_row_rules (oversold overbought : ℚ) (prow : SignalRow) (i : ℕ)
    (pRsi : Option ℚ) :
    ((defaultRow.signal = "BUY" ∨ defaultRow.signal = "STRONG BUY") ↔
      ((∃ p r, pRsi = some p ∧ defaultRow.rsi = some r ∧
        p < oversold ∧ oversold ≤ r) ∧ defaultRow.ema_slow < defaultRow.ema_fast)) ∧
    ((defaultRow.signal = "SELL" ∨ defaultRow.signal = "STRONG SELL") ↔
      ((∃ p r, pRsi = some p ∧ defaultRow.rsi = some r ∧
        overbought < p ∧ r ≤ overbought) ∧ defaultRow.ema_fast < defaultRow.ema_slow)) ∧
    (defaultRow.signal = "STRONG BUY" ↔
      (((∃ p r, pRsi = some p ∧ defaultRow.rsi = some r ∧
        p < oversold ∧ oversold ≤ r) ∧ defaultRow.ema_slow < defaultRow.ema_fast) ∧
       (i ≠ 0 ∧ prow.macd < prow.macd_signal ∧ defaultRow.macd_signal < defaultRow.macd))) ∧
    (defaultRow.signal = "STRONG SELL" ↔
      (((∃ p r, pRsi = some p ∧ defaultRow.rsi = some r ∧
        overbought < p ∧ r ≤ overbought) ∧ defaultRow.ema_fast < defaultRow.ema_slow) ∧
       (i ≠ 0 ∧ prow.macd_signal < prow.macd ∧ defaultRow.macd < defaultRow.macd_signal))) ∧
    (defaultRow.signal = "HOLD" ↔
      (¬((∃ p r, pRsi = some p ∧ defaultRow.rsi = some r ∧
        p < oversold ∧ oversold ≤ r) ∧ defaultRow.ema_slow < defaultRow.ema_fast) ∧
       ¬((∃ p r, pRsi = some p ∧ defaultRow.rsi = some r ∧
        overbought < p ∧ r ≤ overbought) ∧ defaultRow.ema_fast < defaultRow.ema_slow))) := by
  refine ⟨?_, ?_, ?_, ?_, ?_⟩ <;> simp [defaultRow]



/-- The five signal rules at a computed row. -/
lemma mkRow_rules (period : ℕ) (oversold overbought : ℚ) (fp sp : ℕ)
    (closes : List ℚ) (i : ℕ) (prow : SignalRow)
    (hpRsi : (if i = 0 then none else prow.rsi) = prevRsiAt period closes i)
    (hpm : i ≠ 0 → prow.macd = macdAt fp sp closes (i - 1))
    (hps : i ≠ 0 → prow.macd_signal = macdSigAt fp sp closes (i - 1)) :
    (((mkRow period oversold overbought fp sp closes i).signal = "BUY" ∨
      (mkRow period oversold overbought fp sp closes i).signal = "STRONG BUY") ↔
      ((∃ p r, (if i = 0 then none else prow.rsi) = some p ∧
        (mkRow period oversold overbought fp sp closes i).rsi = some r ∧
        p < oversold ∧ oversold ≤ r) ∧
       (mkRow period oversold overbought fp sp closes i).ema_slow <
        (mkRow period oversold overbought fp sp closes i).ema_fast)) ∧
    (((mkRow period oversold overbought fp sp closes i).signal = "SELL" ∨
      (mkRow period oversold overbought fp sp closes i).signal = "STRONG SELL") ↔
      ((∃ p r, (if i = 0 then none else prow.rsi) = some p ∧
        (mkRow period oversold overbought fp sp closes i).rsi = some r ∧
        overbought < p ∧ r ≤ overbought) ∧
       (mkRow period oversold overbought fp sp closes i).ema_fast <
        (mkRow period oversold overbought fp sp closes i).ema_slow)) ∧
    ((mkRow period oversold overbought fp sp closes i).signal = "STRONG BUY" ↔
      (((∃ p r, (if i = 0 then none else prow.rsi) = some p ∧
        (mkRow period oversold overbought fp sp closes i).rsi = some r ∧
        p < oversold ∧ oversold ≤ r) ∧
       (mkRow period oversold overbought fp sp closes i).ema_slow <
        (mkRow period oversold overbought fp sp closes i).ema_fast) ∧
       (i ≠ 0 ∧ prow.macd < prow.macd_signal ∧
        (mkRow period oversold overbought fp sp closes i).macd_signal <
         (mkRow period oversold overbought fp sp closes i).macd))) ∧
    ((mkRow period oversold overbought fp sp closes i).signal = "STRONG SELL" ↔
      (((∃ p r, (if i = 0 then none else prow.rsi) = some p ∧
        (mkRow period oversold overbought fp sp closes i).rsi = some r ∧
        overbought < p ∧ r ≤ overbought) ∧
       (mkRow period oversold overbought fp sp closes i).ema_fast <
        (mkRow period oversold overbought fp sp closes i).ema_slow) ∧
       (i ≠ 0 ∧ prow.macd_signal < prow.macd ∧
        (mkRow period oversold overbought fp sp closes i).macd <
         (mkRow period oversold overbought fp sp closes i).macd_signal))) ∧
    ((mkRow period oversold overbought fp sp closes i).signal = "HOLD" ↔
      (¬((∃ p r, (if i = 0 then none else prow.rsi) = some p ∧
        (mkRow period oversold overbought fp sp closes i).rsi = some r ∧
        p < oversold ∧ oversold ≤ r) ∧
       (mkRow period oversold overbought fp sp closes i).ema_slow <
        (mkRow period oversold overbought fp sp closes i).ema_fast) ∧
       ¬((∃ p r, (if i = 0 then none else prow.rsi) = some p ∧
        (mkRow period oversold overbought fp sp closes i).rsi = some r ∧
        overbought < p ∧ r ≤ overbought) ∧
       (mkRow period oversold overbought fp sp closes i).ema_fast <
        (mkRow period oversold overbought fp sp closes i).ema_slow))) := by
  simp only [mkRow, hpRsi]
  have hdisj : ¬(buyMask period oversold fp sp closes i = true ∧
      sellMask period overbought fp sp closes i = true) := by
    rintro ⟨hb, hs⟩
    rw [buyMask_iff] at hb
    rw [sellMask_iff] at hs
    exact absurd hb.2 (not_lt.mpr (le_of_lt hs.2))
  obtain ⟨I1, I2, I3, I4, I5⟩ := signalChain_spec (buyMask period oversold fp sp closes i)
    (sellMask period overbought fp sp closes i) (macdUpMask fp sp closes i)
    (macdDownMask fp sp closes i) hdisj
  have hup : macdUpMask fp sp closes i = true ↔
      (i ≠ 0 ∧ prow.macd < prow.macd_signal ∧
        macdSigAt fp sp closes i < macdAt fp sp closes i) := by
    rw [macdUpMask_iff]
    constructor
    · rintro ⟨h0, h1, h2⟩
      refine ⟨h0, ?_, h2⟩
      rw [hpm h0, hps h0]
      exact h1
    · rintro ⟨h0, h1, h2⟩
      rw [hpm h0, hps h0] at h1
      exact ⟨h0, h1, h2⟩
  have hdown : macdDownMask fp sp closes i = true ↔
      (i ≠ 0 ∧ prow.macd_signal < prow.macd ∧
        macdAt fp sp closes i < macdSigAt fp sp closes i) := by
    rw [macdDownMask_iff]
    constructor
    · rintro ⟨h0, h1, h2⟩
      refine ⟨h0, ?_, h2⟩
      rw [hpm h0, hps h0]
      exact h1
    · rintro ⟨h0, h1, h2⟩
      rw [hpm h0, hps h0] at h1
      exact ⟨h0, h1, h2⟩
  refine ⟨I1.trans (buyMask_iff period oversold fp sp closes i),
    I2.trans (sellMask_iff period overbought fp sp closes i),
    I3.trans (and_congr (buyMask_iff period oversold fp sp closes i) hup),
    I4.trans (and_congr (sellMask_iff period overbought fp sp closes i) hdown),
    I5.trans (and_congr (not_congr (buyMask_iff period oversold fp sp closes i))
      (not_congr (sellMask_iff period overbought fp sp closes i)))⟩


/-- C5: for every bar of the signal deriver's output the signal is BUY or
STRONG BUY exactly when the oscillator crosses upward through the
oversold threshold (previous value below, current value at or above)
with the fast trend line above the slow one; SELL/STRONG SELL is the
symmetric downward cross through the overbought threshold with fast
below slow; the STRONG variants hold exactly when the MACD line crosses
its own signal line in the same direction at the same bar; all other
bars are HOLD — in particular an upward oversold cross with fast below
slow stays HOLD. -/
theorem C5_signal_rules (period : ℕ) (oversold overbought : ℚ) (fp sp : ℕ)
    (closes : List ℚ) (i : ℕ) :
    SignalRulesSpec period oversold overbought fp sp closes i := by
  rw [SignalRulesSpec]
  by_cases hemp : closes.isEmpty
  · rw [rsi_signal, if_pos hemp]
    simp only [List.getD_nil]
    exact default_row_rules oversold overbought defaultRow i
      (if i = 0 then none else defaultRow.rsi)
  · rw [rsi_signal, if_neg hemp]
    by_cases hin : i < closes.length
    · have hi1 : i - 1 < closes.length := lt_of_le_of_lt (Nat.sub_le i 1) hin
      rw [getD_range_map _ _ _ hin, getD_range_map _ _ _ hi1]
      refine mkRow_rules period oversold overbought fp sp closes i
        (mkRow period oversold overbought fp sp closes (i - 1)) ?_ (fun _ => rfl) (fun _ => rfl)
      by_cases h : i = 0
      · rw [if_pos h, prevRsiAt, if_pos h]
      · rw [if_neg h, prevRsiAt, if_neg h]; rfl
    · rw [getD_range_map_ge _ _ _ (not_lt.mp hin)]
      exact default_row_rules oversold overbought _ i _


/-- C9: the signal deriver returns an empty output on empty input without
raising; a single-row input yields HOLD (no prior bar to cross from);
and every row whose oscillator value or prior oscillator value is
undefined (insufficient warm-up) is HOLD. -/
theorem C9_degenerate (period : ℕ) (oversold overbought : ℚ) (fp sp : ℕ) :
    rsi_signal period oversold overbought fp sp [] = [] ∧
    (∀ x : ℚ, (rsi_signal period oversold overbought fp sp [x]).map SignalRow.signal =
      ["HOLD"]) ∧
    (∀ (closes : List ℚ) (i : ℕ),
      (((rsi_signal period oversold overbought fp sp closes).getD i defaultRow).rsi = none ∨
        (if i = 0 then none else
          ((rsi_signal period oversold overbought fp sp closes).getD (i - 1) defaultRow).rsi)
          = none) →
      ((rsi_signal period oversold overbought fp sp closes).getD i defaultRow).signal =
        "HOLD") := by
  refine ⟨by rw [rsi_signal]; rfl, ?_, ?_⟩
  · intro x
    rw [rsi_signal, if_neg (by simp)]
    show [(mkRow period oversold overbought fp sp [x] 0).signal] = ["HOLD"]
    have hb : buyMask period oversold fp sp [x] 0 = false := by
      rw [buyMask, prevRsiAt, if_pos rfl]
      simp [obLT]
    have hs : sellMask period overbought fp sp [x] 0 = false := by
      rw [sellMask, prevRsiAt, if_pos rfl]
      simp [obLT]
    show [signalChain (buyMask period oversold fp sp [x] 0)
      (sellMask period overbought fp sp [x] 0) (macdUpMask fp sp [x] 0)
      (macdDownMask fp sp [x] 0)] = ["HOLD"]
    rw [hb, hs, signalChain_hold]
  · intro closes i h
    by_cases hemp : closes.isEmpty
    · rw [rsi_signal, if_pos hemp]
      simp only [List.getD_nil]
      rfl
    · rw [rsi_signal, if_neg hemp] at h ⊢
      by_cases hin : i < closes.length
      · rw [getD_range_map _ _ _ hin] at h ⊢
        have hundef : (rsiAt period closes i).isSome = false ∨
            (prevRsiAt period closes i).isSome = false := by
          rcases h with h | h
          · left
            show ((mkRow period oversold overbought fp sp closes i).rsi).isSome = false
            rw [h]
            rfl
          · right
            by_cases h0 : i = 0
            · rw [prevRsiAt, if_pos h0]
              rfl
            · rw [if_neg h0] at h
              rw [getD_range_map _ _ _ (lt_of_le_of_lt (Nat.sub_le i 1) hin)] at h
              rw [prevRsiAt, if_neg h0]
              show ((mkRow period oversold overbought fp sp closes (i - 1)).rsi).isSome = false
              rw [h]
              rfl
        have hb : buyMask period oversold fp sp closes i = false := by
          rw [buyMask]
          rcases hundef with h | h <;> rw [h] <;> simp
        have hs : sellMask period overbought fp sp closes i = false := by
          rw [sellMask]
          rcases hundef with h | h <;> rw [h] <;> simp
        show signalChain (buyMask period oversold fp sp closes i)
          (sellMask period overbought fp sp closes i) (macdUpMask fp sp closes i)
          (macdDownMask fp sp closes i) = "HOLD"
        rw [hb, hs, signalChain_hold]
      · rw [getD_range_map_ge _ _ _ (not_lt.mp hin)]
        rfl

end SignalBot
